import Mathlib

/- Formal model of the plover-tinymod4 driver (plover_tinymod4_main.py).

   The development shallowly embeds:
   * `ForthStack`, the fixed-size circular data stack (values are Python
     integers, modelled as `Int`; the pointer is a Python integer masked
     with `stackMask` on every move, modelled with `Int.land`);
   * the key-reading pipeline of `TinyMod4Machine` (`_read_raw_keys`,
     `_read_ab`, `_read_all`, the accumulation loop of `_scan`, `_send`,
     `_on_stroke`, `_connect`, `_reconnect`);
   * the output pipeline of `TinyMod4Extension` (the action buffer fed by
     `_send_string` / `_send_backspaces` / `_send_key_combination`, the
     drain loop of `run`, and the HID report encoding driven by
     `_hid_lut`).

   Theorems about these definitions follow after all definitions. -/

/-! ### The circular Forth data stack (`class ForthStack`) -/

/-- The state of a `ForthStack`: the constructor arguments `stackSize` and
`stackMask`, the backing array `self._stack`, and the pointer `self._p`.
Python integers are unbounded, so the pointer and the cells are `Int`. -/
structure ForthStack where
  stackSize : Nat
  stackMask : Int
  stack : List Int
  p : Int
deriving DecidableEq

/-- Source `ForthStack.__init__`: `self._stack = [0] * stackSize; self._p = 0`. -/
def ForthStack.init (stackSize : Nat) (stackMask : Int) : ForthStack :=
  ⟨stackSize, stackMask, List.replicate stackSize 0, 0⟩

/-- The cell the pointer designates, `self._stack[self._p]` (top of stack). -/
def ForthStack.top (s : ForthStack) : Int :=
  s.stack.getD s.p.toNat 0

/-- Source `push`: `self._p = (self._p + 1) & self._stackMask; self._stack[self._p] = n`. -/
def ForthStack.push (s : ForthStack) (n : Int) : ForthStack :=
  let q := Int.land (s.p + 1) s.stackMask
  ⟨s.stackSize, s.stackMask, s.stack.set q.toNat n, q⟩

/-- Source `pop`: `n = self._stack[self._p]; self._p = (self._p - 1) & self._stackMask; return n`. -/
def ForthStack.pop (s : ForthStack) : Int × ForthStack :=
  (s.top, ⟨s.stackSize, s.stackMask, s.stack, Int.land (s.p - 1) s.stackMask⟩)

/-- Source `drop`: `self.pop()` with the value discarded. -/
def ForthStack.drop (s : ForthStack) : ForthStack :=
  s.pop.2

/-- Source `back`: `for _ in range(1, stackSize): self.drop()`, i.e. `stackSize - 1` drops. -/
def ForthStack.back (s : ForthStack) : ForthStack :=
  ForthStack.drop^[s.stackSize - 1] s

/-- Source `dup`: `self.push(self._stack[self._p])`. -/
def ForthStack.dup (s : ForthStack) : ForthStack :=
  s.push s.top

/-- Source `swap`: `a = pop; b = pop; push(a); push(b)`. -/
def ForthStack.swap (s : ForthStack) : ForthStack :=
  let (a, s) := s.pop
  let (b, s) := s.pop
  (s.push a).push b

/-- Source `over`: `a = pop; b = pop; push(b); push(a); push(b)`. -/
def ForthStack.over (s : ForthStack) : ForthStack :=
  let (a, s) := s.pop
  let (b, s) := s.pop
  ((s.push b).push a).push b

/-- Source `add`: `a = pop; self._stack[self._p] = a + self._stack[self._p]`. -/
def ForthStack.add (s : ForthStack) : ForthStack :=
  let (a, s) := s.pop
  ⟨s.stackSize, s.stackMask, s.stack.set s.p.toNat (a + s.top), s.p⟩

/-- Source `and_`: `a = pop; self._stack[self._p] = a & self._stack[self._p]`. -/
def ForthStack.and_ (s : ForthStack) : ForthStack :=
  let (a, s) := s.pop
  ⟨s.stackSize, s.stackMask, s.stack.set s.p.toNat (Int.land a s.top), s.p⟩

/-- Source `or_`: `a = pop; self._stack[self._p] = a | self._stack[self._p]`. -/
def ForthStack.or_ (s : ForthStack) : ForthStack :=
  let (a, s) := s.pop
  ⟨s.stackSize, s.stackMask, s.stack.set s.p.toNat (Int.lor a s.top), s.p⟩

/-- Source `xor`: `a = pop; self._stack[self._p] = a ^ self._stack[self._p]`. -/
def ForthStack.xor (s : ForthStack) : ForthStack :=
  let (a, s) := s.pop
  ⟨s.stackSize, s.stackMask, s.stack.set s.p.toNat (Int.xor a s.top), s.p⟩

/-- Source `invert`: `self._stack[self._p] = ~self._stack[self._p]` (bitwise not). -/
def ForthStack.invert (s : ForthStack) : ForthStack :=
  ⟨s.stackSize, s.stackMask, s.stack.set s.p.toNat (Int.lnot s.top), s.p⟩

/-- Source `negate`: `self._stack[self._p] = -self._stack[self._p]`. -/
def ForthStack.negate (s : ForthStack) : ForthStack :=
  ⟨s.stackSize, s.stackMask, s.stack.set s.p.toNat (-s.top), s.p⟩

/-- One stack-machine instruction: every public `ForthStack` method. -/
inductive StackOp where
  | push (n : Int)
  | pop
  | drop
  | back
  | dup
  | swap
  | over
  | add
  | and_
  | or_
  | xor
  | invert
  | negate

/-- Execute one instruction on the stack (a `pop` discards its value). -/
def ForthStack.applyOp (s : ForthStack) : StackOp → ForthStack
  | .push n => s.push n
  | .pop => s.pop.2
  | .drop => s.drop
  | .back => s.back
  | .dup => s.dup
  | .swap => s.swap
  | .over => s.over
  | .add => s.add
  | .and_ => s.and_
  | .or_ => s.or_
  | .xor => s.xor
  | .invert => s.invert
  | .negate => s.negate

/-- Execute a sequence of instructions. -/
def ForthStack.runOps (s : ForthStack) (ops : List StackOp) : ForthStack :=
  ops.foldl ForthStack.applyOp s

/-- The structural invariant of a stack built as `ForthStack(2^k, 2^k - 1)`:
the construction parameters are as given, the backing array keeps its
original size, and the pointer lies inside the array, so that every
array access `self._stack[self._p]` is in bounds. -/
def ForthStack.Inv (k : Nat) (s : ForthStack) : Prop :=
  s.stackSize = 2 ^ k ∧ s.stackMask = (2 : Int) ^ k - 1 ∧
    s.stack.length = 2 ^ k ∧ 0 ≤ s.p ∧ s.p < (2 : Int) ^ k

/-! ### Key reading (`TinyMod4Machine._read_raw_keys` / `_read_ab` / `_read_all`) -/

/-- The integer value of one `io.input(...)` reading (`0` or `1`). -/
def pinBit (b : Bool) : Int :=
  if b then 1 else 0

/-- The packing loop of `_read_raw_keys` before the final inversion:
`a = 0; a |= io.input(16); a |= io.input(20) << 1; ...; a |= io.input(0) << 8`.
Arguments are the nine GPIO readings in source order. -/
def packRawPins (i16 i20 i21 i1 i26 i19 i13 i6 i0 : Bool) : Int :=
  Int.lor
    (Int.lor
      (Int.lor
        (Int.lor
          (Int.lor
            (Int.lor
              (Int.lor
                (Int.lor
                  (Int.lor 0 (pinBit i16))
                  (pinBit i20 <<< (1 : Int)))
                (pinBit i21 <<< (2 : Int)))
              (pinBit i1 <<< (3 : Int)))
            (pinBit i26 <<< (4 : Int)))
          (pinBit i19 <<< (5 : Int)))
        (pinBit i13 <<< (6 : Int)))
      (pinBit i6 <<< (7 : Int)))
    (pinBit i0 <<< (8 : Int))

/-- Source `_read_raw_keys`: pack the nine pins, invert with `a ^= 0x1ff`, push. -/
def readRawKeys (i16 i20 i21 i1 i26 i19 i13 i6 i0 : Bool) (s : ForthStack) : ForthStack :=
  s.push (Int.xor (packRawPins i16 i20 i21 i1 i26 i19 i13 i6 i0) 0x1ff)

/-- The 16-bit expander word of `_read_ab` before inversion:
`a = read(0x12); b = read(0x13); a |= b << 8`. -/
def expanderWord (ra rb : Int) : Int :=
  Int.lor ra (rb <<< (8 : Int))

/-- Source `_read_ab`: build the 16-bit word, invert with `a ^= 0xffff`, push. -/
def readAB (ra rb : Int) (s : ForthStack) : ForthStack :=
  s.push (Int.xor (expanderWord ra rb) 0xffff)

/-- Source `_read_all`: read both sources, then `over ; over ; or_ ; pop` and set
`self._pressed` to `False` exactly when the popped merged mask is zero.
The returned triple is (the popped merged mask `a`, the new `_pressed`
flag, the stack that remains). -/
def readAll (i16 i20 i21 i1 i26 i19 i13 i6 i0 : Bool) (ra rb : Int) (s : ForthStack) :
    Int × Bool × ForthStack :=
  let s := readRawKeys i16 i20 i21 i1 i26 i19 i13 i6 i0 s
  let s := readAB ra rb s
  let s := s.over
  let s := s.over
  let s := s.or_
  let (a, s) := s.pop
  (a, if a = 0 then false else true, s)

/-- Modelled from the spec sentence under test for the refinement claim:
"the merged bitmask equals the bitwise OR of the two inverted sub-masks",
written directly as `(rawBits ^ 0x1ff) | (expanderWord ^ 0xffff)`. -/
def mergedMaskSpec (rawBits expWord : Int) : Int :=
  Int.lor (Int.xor rawBits 0x1ff) (Int.xor expWord 0xffff)

/-- The accumulation loop of `_scan`:
`while self._pressed: self._read_all(); b |= pop(); a |= pop()`.
Each sample is the pair of values a `_read_all` call leaves on the stack,
`(raw-side mask, expander-side mask)`; the first `pop` (accumulated into
`b`) yields the expander-side mask, the second (into `a`) the raw-side
mask, and `_pressed` after that `_read_all` is the test
`expander-side | raw-side ≠ 0` (see `readAll`). -/
def scanAccum : List (Int × Int) → Int → Int → Int × Int
  | [], a, b => (a, b)
  | sample :: rest, a, b =>
    let b := Int.lor b sample.2
    let a := Int.lor a sample.1
    if Int.lor sample.2 sample.1 = 0 then (a, b) else scanAccum rest a b

/-! ### Chord decoding and stroke emission (`_send` / `_on_stroke`) -/

/-- The decoding table of `_send`: `keys = []`, then one
`if mask-bit: keys.append(name)` per line, in source order, on the popped
accumulators `a` and `b` (a Python `if x:` on an integer tests `x != 0`). -/
def sendKeys (a b : Int) : List String :=
  let keys : List String := []
  let keys := if Int.land a 0x10 ≠ 0 then keys ++ ["S1-"] else keys
  let keys := if Int.land a 0x08 ≠ 0 then keys ++ ["S2-"] else keys
  let keys := if Int.land a 0x20 ≠ 0 then keys ++ ["T-"] else keys
  let keys := if Int.land a 0x04 ≠ 0 then keys ++ ["K-"] else keys
  let keys := if Int.land a 0x40 ≠ 0 then keys ++ ["P-"] else keys
  let keys := if Int.land a 0x02 ≠ 0 then keys ++ ["W-"] else keys
  let keys := if Int.land a 0x80 ≠ 0 then keys ++ ["H-"] else keys
  let keys := if Int.land a 0x01 ≠ 0 then keys ++ ["R-"] else keys
  let keys := if Int.land b 0x08 ≠ 0 then keys ++ ["A-"] else keys
  let keys := if Int.land b 0x10 ≠ 0 then keys ++ ["O-"] else keys
  let keys := if Int.land a 0x100 ≠ 0 then keys ++ ["*1"] else keys
  let keys := if Int.land b 0x200 ≠ 0 then keys ++ ["*2"] else keys
  let keys := if Int.land b 0x20 ≠ 0 then keys ++ ["#1"] else keys
  let keys := if Int.land b 0x40 ≠ 0 then keys ++ ["-E"] else keys
  let keys := if Int.land b 0x80 ≠ 0 then keys ++ ["-U"] else keys
  let keys := if Int.land b 0x8000 ≠ 0 then keys ++ ["-F"] else keys
  let keys := if Int.land b 0x01 ≠ 0 then keys ++ ["-R"] else keys
  let keys := if Int.land b 0x4000 ≠ 0 then keys ++ ["-P"] else keys
  let keys := if Int.land b 0x02 ≠ 0 then keys ++ ["-B"] else keys
  let keys := if Int.land b 0x2000 ≠ 0 then keys ++ ["-L"] else keys
  let keys := if Int.land b 0x04 ≠ 0 then keys ++ ["-G"] else keys
  let keys := if Int.land b 0x1000 ≠ 0 then keys ++ ["-T"] else keys
  let keys := if Int.land b 0x800 ≠ 0 then keys ++ ["-S"] else keys
  let keys := if Int.land b 0x100 ≠ 0 then keys ++ ["-D"] else keys
  let keys := if Int.land b 0x400 ≠ 0 then keys ++ ["-Z"] else keys
  keys

/-- Source `_on_stroke`: map the keys through the keymap and notify only when the
result is non-empty; `none` means no notification was sent. -/
def onStroke (keymap : List String → List String) (keys : List String) :
    Option (List String) :=
  let stenoKeys := keymap keys
  if stenoKeys = [] then none else some stenoKeys

/-- The tail of `_send`: `if keys: self._on_stroke(keys)`; `none` means no
notification was sent. -/
def sendNotify (keymap : List String → List String) (a b : Int) :
    Option (List String) :=
  let keys := sendKeys a b
  if keys = [] then none else onStroke keymap keys

/-! ### Startup and reconnect (`_connect` / `_reconnect`) -/

/-- The plover machine states `_connect` can report. -/
inductive MachineState where
  | initializing
  | error
  | ready
deriving DecidableEq

/-- Source `_connect`: any exception during pin/bus setup (`hwFail`) takes the
`except` branch (`_error`, return `False`); otherwise
`if io.input(self._modeSelectPin):` (the pin reading high) logs
"NKRO not selected", calls `_error` and returns `False`; otherwise
`_ready` and return `True`. The result is (connected, reported state). -/
def connectResult (hwFail modePinHigh : Bool) : Bool × MachineState :=
  if hwFail then (false, MachineState.error)
  else if modePinHigh then (false, MachineState.error)
  else (true, MachineState.ready)

/-- Source `_reconnect`: `connected = self._connect()`, then
`while not self.finished.isSet() and not connected:` whose body is
`time.sleep(0.5); connected = self._connect(); return connected` — the
unconditional `return` inside the body means the loop runs at most once,
so at most two `_connect` calls ever happen: `c0` first, then `c1` on the
single retry. Falling out of the loop returns Python `None` (`none`). -/
def reconnectResult (finished0 c0 c1 : Bool) : Option Bool :=
  if finished0 = false ∧ c0 = false then some c1 else none

/-! ### The output buffer (`TinyMod4Extension`) -/

/-- One queued output action: the dictionaries built by `_send_string`
(`{"type": "string", ...}`), `_send_backspaces` and
`_send_key_combination`. -/
inductive OutputAction where
  | text (s : List Char)
  | backspace (n : Nat)
  | keycombo (c : String)
deriving DecidableEq

/-- Source `self._buffer.insert(0, action)`: new actions go to the front. -/
def bufferInsert (buf : List OutputAction) (a : OutputAction) : List OutputAction :=
  a :: buf

/-- Source `self._buffer.pop()`: Python `list.pop()` with no index removes and
returns the LAST element. -/
def bufferPop (buf : List OutputAction) : Option (OutputAction × List OutputAction) :=
  match buf.getLast? with
  | none => none
  | some a => some (a, buf.dropLast)

/-- The drain loop of `run`: `while len(self._buffer) > 0: action =
self._buffer.pop(); ...`, listing the actions in the order the worker
processes them. -/
def drainOrder (buf : List OutputAction) : List OutputAction :=
  match h : bufferPop buf with
  | none => []
  | some ar => ar.1 :: drainOrder ar.2
termination_by buf.length
decreasing_by
  simp only [bufferPop] at h
  rcases hl : buf.getLast? with _ | a
  · rw [hl] at h; exact absurd h (by simp)
  · rw [hl] at h
    cases h
    have hne : buf ≠ [] := by
      intro he
      rw [he] at hl
      exact absurd hl (by simp)
    simp only [List.length_dropLast]
    have : 0 < buf.length := List.length_pos.mpr hne
    omega

/-! ### HID encoding (`TinyMod4Extension.run` and `_hid_lut`) -/

/-- Modifier constants (`NO_MOD` through `R_META`). -/
def NO_MOD : Nat := 0x00

/-- Source `L_CTRL = 0x01`. -/
def L_CTRL : Nat := 0x01

/-- Source `L_SHIFT = 0x02`. -/
def L_SHIFT : Nat := 0x02

/-- Source `L_ALT = 0x04`. -/
def L_ALT : Nat := 0x04

/-- Source `L_META = 0x08`. -/
def L_META : Nat := 0x08

/-- Source `R_CTRL = 0x10`. -/
def R_CTRL : Nat := 0x10

/-- Source `R_SHIFT = 0x20`. -/
def R_SHIFT : Nat := 0x20

/-- Source `R_ALT = 0x40`. -/
def R_ALT : Nat := 0x40

/-- Source `R_META = 0x80`. -/
def R_META : Nat := 0x80

/-- Source `self._hid_lut`: the character to `(modifier, scancode)` table, entry
for entry in source order. Characters that are awkward as literals are
written with `Char.ofNat`: `\b` is 8, `"` is 34, the single quote is 39,
the backtick is 96, the opening brace is 123, the closing brace is 125. -/
def hid_lut : List (Char × Nat × Nat) :=
  [('a', NO_MOD, 4), ('b', NO_MOD, 5), ('c', NO_MOD, 6),
   ('d', NO_MOD, 7), ('e', NO_MOD, 8), ('f', NO_MOD, 9),
   ('g', NO_MOD, 10), ('h', NO_MOD, 11), ('i', NO_MOD, 12),
   ('j', NO_MOD, 13), ('k', NO_MOD, 14), ('l', NO_MOD, 15),
   ('m', NO_MOD, 16), ('n', NO_MOD, 17), ('o', NO_MOD, 18),
   ('p', NO_MOD, 19), ('q', NO_MOD, 20), ('r', NO_MOD, 21),
   ('s', NO_MOD, 22), ('t', NO_MOD, 23), ('u', NO_MOD, 24),
   ('v', NO_MOD, 25), ('w', NO_MOD, 26), ('x', NO_MOD, 27),
   ('y', NO_MOD, 28), ('z', NO_MOD, 29), ('A', L_SHIFT, 4),
   ('B', L_SHIFT, 5), ('C', L_SHIFT, 6), ('D', L_SHIFT, 7),
   ('E', L_SHIFT, 8), ('F', L_SHIFT, 9), ('G', L_SHIFT, 10),
   ('H', L_SHIFT, 11), ('I', L_SHIFT, 12), ('J', L_SHIFT, 13),
   ('K', L_SHIFT, 14), ('L', L_SHIFT, 15), ('M', L_SHIFT, 16),
   ('N', L_SHIFT, 17), ('O', L_SHIFT, 18), ('P', L_SHIFT, 19),
   ('Q', L_SHIFT, 20), ('R', L_SHIFT, 21), ('S', L_SHIFT, 22),
   ('T', L_SHIFT, 23), ('U', L_SHIFT, 24), ('V', L_SHIFT, 25),
   ('W', L_SHIFT, 26), ('X', L_SHIFT, 27), ('Y', L_SHIFT, 28),
   ('Z', L_SHIFT, 29), ('1', NO_MOD, 30), ('2', NO_MOD, 31),
   ('3', NO_MOD, 32), ('4', NO_MOD, 33), ('5', NO_MOD, 34),
   ('6', NO_MOD, 35), ('7', NO_MOD, 36), ('8', NO_MOD, 37),
   ('9', NO_MOD, 38), ('0', NO_MOD, 39), ('!', NO_MOD, 30),
   ('@', L_SHIFT, 31), ('#', L_SHIFT, 32), ('$', L_SHIFT, 33),
   ('%', L_SHIFT, 34), ('^', L_SHIFT, 35), ('&', L_SHIFT, 36),
   ('*', L_SHIFT, 37), ('(', L_SHIFT, 38), (')', L_SHIFT, 39),
   ('\n', NO_MOD, 40), (Char.ofNat 8, NO_MOD, 42), ('\t', NO_MOD, 43),
   (' ', NO_MOD, 44), ('-', NO_MOD, 45), ('_', L_SHIFT, 45),
   ('=', NO_MOD, 46), ('+', L_SHIFT, 46), ('[', NO_MOD, 47),
   (Char.ofNat 123, L_SHIFT, 47), (']', NO_MOD, 48), (Char.ofNat 125, L_SHIFT, 48),
   ('\\', NO_MOD, 49), ('|', L_SHIFT, 49), (';', NO_MOD, 51),
   (':', L_SHIFT, 51), (Char.ofNat 39, NO_MOD, 52), (Char.ofNat 34, L_SHIFT, 52),
   (Char.ofNat 96, NO_MOD, 53), ('~', L_SHIFT, 53), (',', NO_MOD, 54),
   ('<', L_SHIFT, 54), ('.', NO_MOD, 55), ('>', L_SHIFT, 55),
   ('/', NO_MOD, 56), ('?', L_SHIFT, 56)]

/-- Source `self._hid_lut[char]` as a partial lookup: `none` is the `KeyError`
that the `except` branch catches. -/
def lutLookup (c : Char) : Option (Nat × Nat) :=
  hid_lut.lookup c

/-- Source `struct.pack("BBBBL", mod, 0x00, key, 0x00, 0x00000000)` on the
32-bit target: the 8 bytes of one HID key report. -/
def hidReport (mod key : Nat) : List Nat :=
  [mod, 0x00, key, 0x00, 0x00, 0x00, 0x00, 0x00]

/-- Source `struct.pack("Q", 0)`: the 8-byte all-zero trailer record. -/
def zeroTrailer : List Nat :=
  [0, 0, 0, 0, 0, 0, 0, 0]

/-- The per-character body of the `"string"` branch of `run`: try the
table lookup and write report plus trailer; on `KeyError` write the
fallback report (`NO_MOD`, scancode 56) plus trailer. Each element of
the result is the byte string of one `f.write`. -/
def writesForChar (c : Char) : List (List Nat) :=
  match lutLookup c with
  | some mk => [hidReport mk.1 mk.2, zeroTrailer]
  | none => [hidReport NO_MOD 56, zeroTrailer]

/-- The `for char in list(action["string"])` loop: all writes in order. -/
def writesForString : List Char → List (List Nat)
  | [] => []
  | c :: cs => writesForChar c ++ writesForString cs

/-- The device writes one dequeued action produces: the `"string"` branch
encodes each character, the `"backspace"` branch writes the scancode-42
report plus trailer `n` times, the `"keycombo"` branch only logs. -/
def actionWrites : OutputAction → List (List Nat)
  | .text s => writesForString s
  | .backspace n => List.flatten (List.replicate n [hidReport NO_MOD 42, zeroTrailer])
  | .keycombo _ => []

/-! ### Helper lemmas -/

/-- Ground evaluation: `(-1) & 7 = 7` (two's-complement masking, the
wraparound case of the pointer decrement). -/
lemma land_m1_7 : Int.land (-1) 7 = 7 := by
  show Int.land (Int.negSucc 0) (Int.ofNat 7) = 7
  unfold Int.land
  simp [Nat.ldiff]

lemma land_0_7 : Int.land 0 7 = 0 := by decide

lemma land_1_7 : Int.land 1 7 = 1 := by decide

lemma land_2_7 : Int.land 2 7 = 2 := by decide

lemma land_3_7 : Int.land 3 7 = 3 := by decide

lemma land_4_7 : Int.land 4 7 = 4 := by decide

lemma land_5_7 : Int.land 5 7 = 5 := by decide

lemma land_6_7 : Int.land 6 7 = 6 := by decide

lemma land_7_7 : Int.land 7 7 = 7 := by decide

lemma land_8_7 : Int.land 8 7 = 0 := by decide

lemma land_9_7 : Int.land 9 7 = 1 := by decide

lemma land_10_7 : Int.land 10 7 = 2 := by decide

lemma land_11_7 : Int.land 11 7 = 3 := by decide

/-- A list of length 8 is an explicit 8-tuple. -/
lemma length_eight_destruct (l : List Int) (hl : l.length = 8) :
    ∃ a b c d e f g i, l = [a, b, c, d, e, f, g, i] := by
  rcases l with _ | ⟨a, l⟩; · simp at hl
  rcases l with _ | ⟨b, l⟩; · simp at hl
  rcases l with _ | ⟨c, l⟩; · simp at hl
  rcases l with _ | ⟨d, l⟩; · simp at hl
  rcases l with _ | ⟨e, l⟩; · simp at hl
  rcases l with _ | ⟨f, l⟩; · simp at hl
  rcases l with _ | ⟨g, l⟩; · simp at hl
  rcases l with _ | ⟨i, l⟩; · simp at hl
  rcases l with _ | ⟨j, l⟩
  · exact ⟨a, b, c, d, e, f, g, i, rfl⟩
  · simp at hl

/-- Source `Int.lor` is commutative. -/
lemma intLor_comm (m n : Int) : Int.lor m n = Int.lor n m := by
  cases m <;> cases n <;> simp [Int.lor, Nat.lor_comm, Nat.land_comm]

/-- The full trace of `_read_all` on a well-formed machine stack
(`ForthStack(8, 7)` with the pointer anywhere in range): the popped merged
mask is the OR of the pushed expander-side and raw-side masks, the top two
remaining entries are (top first) the inverted expander word and the
inverted raw word, and `_pressed` records whether the merged mask was
non-zero. -/
lemma readAll_steps (i16 i20 i21 i1 i26 i19 i13 i6 i0 : Bool) (ra rb : Int)
    (s : ForthStack) (hm : s.stackMask = 7) (hl : s.stack.length = 8)
    (h0 : 0 ≤ s.p) (h8 : s.p < 8) :
    (readAll i16 i20 i21 i1 i26 i19 i13 i6 i0 ra rb s).1 =
      Int.lor (Int.xor (expanderWord ra rb) 0xffff)
        (Int.xor (packRawPins i16 i20 i21 i1 i26 i19 i13 i6 i0) 0x1ff) ∧
    ((readAll i16 i20 i21 i1 i26 i19 i13 i6 i0 ra rb s).2.2.pop).1 =
      Int.xor (expanderWord ra rb) 0xffff ∧
    (((readAll i16 i20 i21 i1 i26 i19 i13 i6 i0 ra rb s).2.2.pop).2.pop).1 =
      Int.xor (packRawPins i16 i20 i21 i1 i26 i19 i13 i6 i0) 0x1ff ∧
    (readAll i16 i20 i21 i1 i26 i19 i13 i6 i0 ra rb s).2.1 =
      (if Int.lor (Int.xor (expanderWord ra rb) 0xffff)
        (Int.xor (packRawPins i16 i20 i21 i1 i26 i19 i13 i6 i0) 0x1ff) = 0
        then false else true) := by
  obtain ⟨sz, mask, stk, p⟩ := s
  simp only at hm hl h0 h8
  subst hm
  obtain ⟨a, b, c, d, e, f, g, i, rfl⟩ := length_eight_destruct stk hl
  interval_cases p <;>
    simp [readAll, readRawKeys, readAB, ForthStack.over, ForthStack.or_,
      ForthStack.pop, ForthStack.push, ForthStack.top,
      land_m1_7, land_0_7, land_1_7, land_2_7, land_3_7, land_4_7, land_5_7,
      land_6_7, land_7_7, land_8_7, land_9_7, land_10_7, land_11_7]

/-! ### Claim theorems -/

/-- Claim C4: for every pair of raw input samples (the 9-bit direct-GPIO
read and the 16-bit expander read), the merged bitmask that `_read_all`
computes through the `ForthStack` sequence push, push, over, over, or_,
pop equals the plain bitwise OR of the two inverted sub-masks,
`(rawBits ^ 0x1ff) | (expanderWord ^ 0xffff)`. -/
theorem read_all_merge_matches_spec (i16 i20 i21 i1 i26 i19 i13 i6 i0 : Bool)
    (ra rb : Int) (s : ForthStack) (hm : s.stackMask = 7)
    (hl : s.stack.length = 8) (h0 : 0 ≤ s.p) (h8 : s.p < 8) :
    (readAll i16 i20 i21 i1 i26 i19 i13 i6 i0 ra rb s).1 =
      mergedMaskSpec (packRawPins i16 i20 i21 i1 i26 i19 i13 i6 i0)
        (expanderWord ra rb) := by
  rw [(readAll_steps i16 i20 i21 i1 i26 i19 i13 i6 i0 ra rb s hm hl h0 h8).1]
  simp only [mergedMaskSpec]
  exact intLor_comm _ _

/-- Witness for C4 at a concrete input (all pins low, expander bytes
0x12/0x34, the freshly initialised `ForthStack(8, 7)`). -/
theorem read_all_merge_matches_spec_witness :
    (ForthStack.init 8 7).stackMask = 7 ∧
    (ForthStack.init 8 7).stack.length = 8 ∧
    0 ≤ (ForthStack.init 8 7).p ∧ (ForthStack.init 8 7).p < 8 ∧
    (readAll false false false false false false false false false 0x12 0x34
        (ForthStack.init 8 7)).1 =
      mergedMaskSpec (packRawPins false false false false false false false false false)
        (expanderWord 0x12 0x34) :=
  ⟨rfl, by decide, by decide, by decide,
    read_all_merge_matches_spec false false false false false false false false false
      0x12 0x34 (ForthStack.init 8 7) rfl (by decide) (by decide) (by decide)⟩

/-- Claim C10: after every call to `_read_all` on a well-formed machine
stack, `_pressed` is `True` iff the OR of the two freshly read inverted
sub-masks is non-zero, and the top two stack entries are, from the top
down, the inverted expander mask and the inverted raw-pin mask — the two
values `_scan` subsequently pops into `b` and `a`, in that order. -/
theorem read_all_pressed_and_top_entries (i16 i20 i21 i1 i26 i19 i13 i6 i0 : Bool)
    (ra rb : Int) (s : ForthStack) (hm : s.stackMask = 7)
    (hl : s.stack.length = 8) (h0 : 0 ≤ s.p) (h8 : s.p < 8) :
    ((readAll i16 i20 i21 i1 i26 i19 i13 i6 i0 ra rb s).2.1 = true ↔
      Int.lor (Int.xor (packRawPins i16 i20 i21 i1 i26 i19 i13 i6 i0) 0x1ff)
        (Int.xor (expanderWord ra rb) 0xffff) ≠ 0) ∧
    ((readAll i16 i20 i21 i1 i26 i19 i13 i6 i0 ra rb s).2.2.pop).1 =
      Int.xor (expanderWord ra rb) 0xffff ∧
    (((readAll i16 i20 i21 i1 i26 i19 i13 i6 i0 ra rb s).2.2.pop).2.pop).1 =
      Int.xor (packRawPins i16 i20 i21 i1 i26 i19 i13 i6 i0) 0x1ff := by
  obtain ⟨-, h2, h3, h4⟩ :=
    readAll_steps i16 i20 i21 i1 i26 i19 i13 i6 i0 ra rb s hm hl h0 h8
  refine ⟨?_, h2, h3⟩
  rw [h4, intLor_comm]
  by_cases hz :
      Int.lor (Int.xor (packRawPins i16 i20 i21 i1 i26 i19 i13 i6 i0) 0x1ff)
        (Int.xor (expanderWord ra rb) 0xffff) = 0 <;>
    simp [hz]

/-- Witness for C10 at a concrete input (all pins high, expander bytes
0xff/0xff — the all-released sample — on the fresh `ForthStack(8, 7)`). -/
theorem read_all_pressed_and_top_entries_witness :
    (ForthStack.init 8 7).stackMask = 7 ∧
    (ForthStack.init 8 7).stack.length = 8 ∧
    0 ≤ (ForthStack.init 8 7).p ∧ (ForthStack.init 8 7).p < 8 ∧
    (((readAll true true true true true true true true true 0xff 0xff
        (ForthStack.init 8 7)).2.1 = true ↔
      Int.lor (Int.xor (packRawPins true true true true true true true true true) 0x1ff)
        (Int.xor (expanderWord 0xff 0xff) 0xffff) ≠ 0) ∧
    ((readAll true true true true true true true true true 0xff 0xff
        (ForthStack.init 8 7)).2.2.pop).1 = Int.xor (expanderWord 0xff 0xff) 0xffff ∧
    (((readAll true true true true true true true true true 0xff 0xff
        (ForthStack.init 8 7)).2.2.pop).2.pop).1 =
      Int.xor (packRawPins true true true true true true true true true) 0x1ff) :=
  ⟨rfl, by decide, by decide, by decide,
    read_all_pressed_and_top_entries true true true true true true true true true
      0xff 0xff (ForthStack.init 8 7) rfl (by decide) (by decide) (by decide)⟩

/-- Draining the empty buffer processes nothing. -/
lemma drainOrder_nil : drainOrder [] = [] := by
  rw [drainOrder]
  rfl

/-- One drain step: `list.pop()` takes the LAST element of the buffer. -/
lemma drainOrder_concat (l : List OutputAction) (a : OutputAction) :
    drainOrder (l ++ [a]) = a :: drainOrder l := by
  have hb : bufferPop (l ++ [a]) = some (a, l) := by
    simp [bufferPop, List.getLast?_concat, List.dropLast_concat]
  rw [drainOrder]
  split
  · rename_i h
    rw [hb] at h
    exact absurd h (by simp)
  · rename_i ar h
    rw [hb] at h
    injection h with h2
    rw [← h2]

/-- Draining a buffer processes its elements back-to-front. -/
lemma drainOrder_reverse (l : List OutputAction) : drainOrder l.reverse = l := by
  induction l with
  | nil => exact drainOrder_nil
  | cons a l ih => rw [List.reverse_cons, drainOrder_concat, ih]

/-- Enqueuing with `insert(0, ...)` builds the reversed list of arrivals. -/
lemma foldl_bufferInsert (es : List OutputAction) (acc : List OutputAction) :
    es.foldl bufferInsert acc = es.reverse ++ acc := by
  induction es generalizing acc with
  | nil => simp
  | cons e es ih => simp [List.foldl_cons, bufferInsert, ih]

/-- Counterexample to claim C1: enqueue `Text "a"` then `Text "b"` before
the drain loop runs; the worker processes `Text "a"` — the FIRST-enqueued
action — first, not the most recently enqueued one. -/
theorem drain_order_lifo_counterexample :
    drainOrder (bufferInsert (bufferInsert [] (OutputAction.text ['a']))
        (OutputAction.text ['b'])) =
      [OutputAction.text ['a'], OutputAction.text ['b']] ∧
    OutputAction.text ['a'] ≠ OutputAction.text ['b'] := by
  constructor
  · show drainOrder ([OutputAction.text ['b']] ++ [OutputAction.text ['a']]) = _
    rw [drainOrder_concat]
    show OutputAction.text ['a'] :: drainOrder ([] ++ [OutputAction.text ['b']]) = _
    rw [drainOrder_concat, drainOrder_nil]
  · decide

/-- Claim C1 as amended: for every batch of actions enqueued (via the
`insert(0, ...)` of the send callbacks) before the worker's drain loop
runs, the drain order is first-enqueued-is-FIRST-drained (FIFO): Python's
`list.pop()` removes the last element, which is the oldest one. -/
theorem drain_order_fifo (es : List OutputAction) :
    drainOrder (es.foldl bufferInsert []) = es := by
  rw [foldl_bufferInsert, List.append_nil, drainOrder_reverse]

/-- Counterexample to claim C2: with the hardware healthy and the
mode-select pin reading LOW, `_connect` reports ready and returns
connected; with the pin reading HIGH it refuses and enters the error
state — the opposite polarity of the claim. -/
theorem connect_pin_high_counterexample :
    connectResult false false = (true, MachineState.ready) ∧
    connectResult false true = (false, MachineState.error) := by
  decide

/-- Claim C2 as amended: at startup `_connect` succeeds (reports ready and
returns connected) only when setup raises no exception and the mode-select
pin reads LOW; whenever the pin reads high, the driver refuses to start
and enters the error/disabled state. -/
theorem connect_requires_pin_low (hwFail modePinHigh : Bool) :
    (connectResult hwFail modePinHigh = (true, MachineState.ready) ↔
      hwFail = false ∧ modePinHigh = false) ∧
    (modePinHigh = true →
      connectResult hwFail modePinHigh = (false, MachineState.error)) := by
  cases hwFail <;> cases modePinHigh <;> simp [connectResult]

/-- Witness for the amended C2 at the concrete input (no hardware fault,
pin high). -/
theorem connect_requires_pin_low_witness :
    (true : Bool) = true ∧ connectResult false true = (false, MachineState.error) :=
  ⟨rfl, (connect_requires_pin_low false true).2 rfl⟩

/-- Claim C5 (the code does not do this): with shutdown never signalled
and hardware initialisation failing on the first call and on the retry,
`_reconnect` returns `False` (unconnected) instead of retrying further —
the `return connected` inside the while body ends the loop after a single
retry. -/
theorem reconnect_single_retry_returns_unconnected :
    reconnectResult false false false = some false := by
  decide

/-- Counterexample to the byte accounting in claim C3: draining
`Text "ab"` writes 32 bytes in total (4 eight-byte writes, i.e. 2
sixteen-byte report-plus-trailer units), not 4 sixteen-byte units. -/
theorem text_ab_sixteen_byte_units_counterexample :
    ((writesForString ['a', 'b']).map List.length).sum = 32 ∧ (32 : Nat) ≠ 4 * 16 := by
  decide

/-- Claim C3 as amended: for every dequeued `Text(s)` action the worker
writes, per character in order, exactly one 8-byte HID report (from the
fixed table, `'a'` mapping to `(NO_MOD, 4)`; an absent character falls
back to modifier `NO_MOD` and scancode 56) followed by exactly one 8-byte
all-zero trailer, so `Text "ab"` produces exactly 4 eight-byte writes
(2 sixteen-byte units), and an encoding failure on one character never
aborts the rest of the batch. -/
theorem hid_text_encoding :
    lutLookup 'a' = some (NO_MOD, 4) ∧
    writesForString ['a', 'b'] =
      [hidReport NO_MOD 4, zeroTrailer, hidReport NO_MOD 5, zeroTrailer] ∧
    (writesForString ['a', 'b']).length = 4 ∧
    (∀ w ∈ writesForString ['a', 'b'], w.length = 8) ∧
    writesForChar (Char.ofNat 1) = [hidReport NO_MOD 56, zeroTrailer] ∧
    ∀ (s t : List Char) (c : Char),
      writesForString (s ++ c :: t) =
        writesForString s ++ writesForChar c ++ writesForString t := by
  refine ⟨by decide, by decide, by decide, by decide, by decide, ?_⟩
  intro s t c
  induction s with
  | nil => rfl
  | cons x s ih => simp [writesForString, ih]

/-- Witness for the amended C3: a concrete write of the batch, its length,
and the splice property at a concrete split. -/
theorem hid_text_encoding_witness :
    hidReport NO_MOD 4 ∈ writesForString ['a', 'b'] ∧
    (hidReport NO_MOD 4).length = 8 ∧
    writesForString (['a'] ++ 'b' :: []) =
      writesForString ['a'] ++ writesForChar 'b' ++ writesForString [] :=
  ⟨by decide, hid_text_encoding.2.2.2.1 _ (by decide),
    hid_text_encoding.2.2.2.2.2 ['a'] [] 'b'⟩

/-- If a bitwise OR of naturals is zero, the left operand is zero. -/
lemma nat_or_eq_zero_left {a b : Nat} (h : a ||| b = 0) : a = 0 := by
  apply Nat.eq_of_testBit_eq
  intro i
  have h2 := congrArg (fun x => Nat.testBit x i) h
  simp only [Nat.testBit_or] at h2
  simp at h2
  simp [h2.1]

/-- If a bitwise OR of naturals is zero, the right operand is zero. -/
lemma nat_or_eq_zero_right {a b : Nat} (h : a ||| b = 0) : b = 0 := by
  apply Nat.eq_of_testBit_eq
  intro i
  have h2 := congrArg (fun x => Nat.testBit x i) h
  simp only [Nat.testBit_or] at h2
  simp at h2
  simp [h2.2]

/-- Source `Int.lor` on natural casts is the natural OR. -/
lemma int_lor_natCast (m n : Nat) :
    Int.lor (m : Int) (n : Int) = ((m ||| n : Nat) : Int) := rfl

/-- Source `Int.lor` with zero on natural casts. -/
lemma int_lor_cast_zero (m : Nat) : Int.lor (m : Int) 0 = (m : Int) := by
  have h := int_lor_natCast m 0
  simpa using h

/-- Ground fact for the termination test of the accumulation loop. -/
lemma int_lor_zero_zero : Int.lor (0 : Int) 0 = 0 := rfl

/-- Consuming `m ≥ 1` identical non-release samples accumulates their two
masks once (OR is idempotent) and continues with the rest. -/
lemma scanAccum_replicate (pa pb : Nat) (hp : pb ||| pa ≠ 0) (rest : List (Int × Int)) :
    ∀ m : Nat, 1 ≤ m → ∀ a b : Nat,
      scanAccum (List.replicate m ((pa : Int), (pb : Int)) ++ rest) (a : Int) (b : Int) =
        scanAccum rest ((a ||| pa : Nat) : Int) ((b ||| pb : Nat) : Int) := by
  intro m
  induction m with
  | zero => omega
  | succ m ih =>
    intro _ a b
    rw [List.replicate_succ, List.cons_append]
    simp only [scanAccum]
    rw [int_lor_natCast b pb, int_lor_natCast a pa, int_lor_natCast pb pa,
      if_neg (fun hz => hp (Int.natCast_eq_zero.mp hz))]
    rcases Nat.eq_zero_or_pos m with rfl | hm
    · simp
    · rw [ih hm (a ||| pa) (b ||| pb), Nat.lor_assoc, Nat.or_self,
        Nat.lor_assoc, Nat.or_self]

/-- Claim C6: a chord whose samples carry masks `(xa, xb)` in the earlier
samples and additionally `(ya, yb)` in the later samples, for any positive
numbers `m` and `n` of samples in the two phases, accumulates exactly the
bitwise union `(xa ||| ya, xb ||| yb)` — independent of the sampling
granularity (OR-accumulation is idempotent). -/
theorem scan_accumulates_union (xa xb ya yb : Nat) (m n : Nat) (hm : 1 ≤ m)
    (hn : 1 ≤ n) (h1 : xb ||| xa ≠ 0) :
    scanAccum
      (List.replicate m ((xa : Int), (xb : Int)) ++
        (List.replicate n (((xa ||| ya : Nat) : Int), ((xb ||| yb : Nat) : Int)) ++
          [((0 : Int), (0 : Int))]))
      ((0 : Nat) : Int) ((0 : Nat) : Int) =
      (((xa ||| ya : Nat) : Int), ((xb ||| yb : Nat) : Int)) := by
  have h2 : (xb ||| yb) ||| (xa ||| ya) ≠ 0 := by
    intro hz
    have hb0 := nat_or_eq_zero_left hz
    have ha0 := nat_or_eq_zero_right hz
    exact h1 (by rw [nat_or_eq_zero_left hb0, nat_or_eq_zero_left ha0]; decide)
  rw [scanAccum_replicate xa xb h1 _ m hm 0 0,
    scanAccum_replicate (xa ||| ya) (xb ||| yb) h2 _ n hn (0 ||| xa) (0 ||| xb)]
  simp only [scanAccum, int_lor_zero_zero, ite_self, int_lor_cast_zero]
  rw [Nat.zero_or, Nat.zero_or, ← Nat.lor_assoc, Nat.or_self,
    ← Nat.lor_assoc, Nat.or_self]

/-- Witness for C6 at a concrete input: first phase mask `(1, 2)`, second
phase adds `(4, 8)`, one sample each. -/
theorem scan_accumulates_union_witness :
    1 ≤ 1 ∧ (2 ||| 1 : Nat) ≠ 0 ∧
    scanAccum
      (List.replicate 1 (((1 : Nat) : Int), ((2 : Nat) : Int)) ++
        (List.replicate 1 (((1 ||| 4 : Nat) : Int), ((2 ||| 8 : Nat) : Int)) ++
          [((0 : Int), (0 : Int))]))
      ((0 : Nat) : Int) ((0 : Nat) : Int) =
      (((1 ||| 4 : Nat) : Int), ((2 ||| 8 : Nat) : Int)) :=
  ⟨le_refl 1, by decide,
    scan_accumulates_union 1 2 4 8 1 1 (le_refl 1) (le_refl 1) (by decide)⟩

/-- A sublist of a list stays a sublist after the Python
`if flag: keys.append(x)` step. -/
lemma sublist_ite_append {α : Type} (sub X s : List α) (c : Prop) [Decidable c]
    (h : List.Sublist sub X) : List.Sublist sub (if c then X ++ s else X) := by
  split
  · exact h.trans (List.sublist_append_left X s)
  · exact h

/-- Claim C7: decoding follows the fixed bit-to-name table; `A = 0x10`,
`B = 0` yields exactly `["S1-"]`, and whenever bit `0x100` of `A` and bit
`0x200` of `B` are both set, the `KeySet` contains `*1` before `*2`. -/
theorem send_decode_star_order :
    sendKeys 0x10 0 = ["S1-"] ∧
    ∀ a b : Int, Int.land a 0x100 ≠ 0 → Int.land b 0x200 ≠ 0 →
      List.Sublist ["*1", "*2"] (sendKeys a b) := by
  refine ⟨by decide, ?_⟩
  intro a b h1 h2
  simp only [sendKeys]
  iterate 13 apply sublist_ite_append
  rw [if_pos h2, if_pos h1, List.append_assoc]
  exact List.sublist_append_right _ _

/-- Witness for C7 at the concrete masks `A = 0x100`, `B = 0x200`. -/
theorem send_decode_star_order_witness :
    Int.land (0x100 : Int) 0x100 ≠ 0 ∧ Int.land (0x200 : Int) 0x200 ≠ 0 ∧
    List.Sublist ["*1", "*2"] (sendKeys 0x100 0x200) :=
  ⟨by decide, by decide, send_decode_star_order.2 0x100 0x200 (by decide) (by decide)⟩

/-- Claim C8: if both accumulated masks are zero, `_send` produces the
empty `KeySet` and sends no stroke notification; and whenever the keymap
maps the decoded `KeySet` to no engine actions, `_on_stroke` performs no
notification. -/
theorem empty_chord_no_notification :
    sendKeys 0 0 = [] ∧
    (∀ keymap : List String → List String, sendNotify keymap 0 0 = none) ∧
    ∀ (keymap : List String → List String) (a b : Int),
      keymap (sendKeys a b) = [] → sendNotify keymap a b = none := by
  have h00 : sendKeys 0 0 = [] := by decide
  refine ⟨h00, fun keymap => by simp [sendNotify, h00], ?_⟩
  intro keymap a b hk
  by_cases hkeys : sendKeys a b = [] <;> simp [sendNotify, onStroke, hkeys, hk]

/-- Witness for C8 with the empty keymap applied to the chord `S1-`. -/
theorem empty_chord_no_notification_witness :
    (fun _ : List String => ([] : List String)) (sendKeys 0x10 0) = [] ∧
    sendNotify (fun _ : List String => ([] : List String)) 0x10 0 = none :=
  ⟨rfl, empty_chord_no_notification.2.2 (fun _ => []) 0x10 0 rfl⟩

/-- Source `Int.land` on natural casts is the natural AND. -/
lemma int_land_natCast (m n : Nat) :
    Int.land (m : Int) (n : Int) = ((m &&& n : Nat) : Int) := rfl

/-- Masking any pointer value `≥ -1` with `2^k - 1` lands in `[0, 2^k)`:
the wraparound is total, no offset can take the pointer out of range. -/
lemma land_mask_range (k : Nat) (n : Int) (hn : -1 ≤ n) :
    0 ≤ Int.land n ((2 : Int) ^ k - 1) ∧ Int.land n ((2 : Int) ^ k - 1) < (2 : Int) ^ k := by
  have h1 : (1 : Nat) ≤ 2 ^ k := Nat.one_le_two_pow
  have h2 : ((2 ^ k : Nat) : Int) = (2 : Int) ^ k := by push_cast; ring
  have hmask : (2 : Int) ^ k - 1 = ((2 ^ k - 1 : Nat) : Int) := by omega
  rw [hmask, ← h2]
  rcases (by omega : n = -1 ∨ 0 ≤ n) with rfl | hpos
  · have hm1 : Int.land (-1) ((2 ^ k - 1 : Nat) : Int) = ((2 ^ k - 1 : Nat) : Int) := by
      show Int.land (Int.negSucc 0) (Int.ofNat (2 ^ k - 1)) = Int.ofNat (2 ^ k - 1)
      unfold Int.land
      simp [Nat.ldiff, Nat.bitwise_zero_right]
    rw [hm1]
    omega
  · obtain ⟨m, rfl⟩ := Int.eq_ofNat_of_zero_le hpos
    rw [int_land_natCast]
    have hle : m &&& (2 ^ k - 1) ≤ 2 ^ k - 1 := Nat.and_le_right
    omega

/-- Source `push` preserves the stack invariant. -/
lemma push_inv {k : Nat} {s : ForthStack} (h : s.Inv k) (n : Int) :
    (s.push n).Inv k := by
  obtain ⟨h1, h2, h3, h4, h5⟩ := h
  have hr := land_mask_range k (s.p + 1) (by omega)
  refine ⟨h1, h2, ?_, ?_, ?_⟩
  · simp only [ForthStack.push, List.length_set]
    exact h3
  · simp only [ForthStack.push]
    rw [h2]
    exact hr.1
  · simp only [ForthStack.push]
    rw [h2]
    exact hr.2

/-- Source `pop` preserves the stack invariant. -/
lemma pop_inv {k : Nat} {s : ForthStack} (h : s.Inv k) : s.pop.2.Inv k := by
  obtain ⟨h1, h2, h3, h4, h5⟩ := h
  have hr := land_mask_range k (s.p - 1) (by omega)
  exact ⟨h1, h2, h3, by rw [ForthStack.pop, h2]; exacts [hr.1], by rw [ForthStack.pop, h2]; exacts [hr.2]⟩

/-- Overwriting the cell under the pointer preserves the invariant. -/
lemma set_inv {k : Nat} {s : ForthStack} (h : s.Inv k) (i : Nat) (v : Int) :
    (ForthStack.mk s.stackSize s.stackMask (s.stack.set i v) s.p).Inv k := by
  obtain ⟨h1, h2, h3, h4, h5⟩ := h
  exact ⟨h1, h2, by simp [h3], h4, h5⟩

/-- Iterated `drop` preserves the invariant. -/
lemma drop_iterate_inv {k : Nat} (m : Nat) {s : ForthStack} (h : s.Inv k) :
    (ForthStack.drop^[m] s).Inv k := by
  induction m generalizing s with
  | zero => exact h
  | succ m ih => rw [Function.iterate_succ_apply]; exact ih (pop_inv h)

/-- Every `ForthStack` instruction preserves the invariant. -/
lemma applyOp_inv {k : Nat} {s : ForthStack} (h : s.Inv k) (op : StackOp) :
    (s.applyOp op).Inv k := by
  cases op with
  | push n => exact push_inv h n
  | pop => exact pop_inv h
  | drop => exact pop_inv h
  | back => exact drop_iterate_inv _ h
  | dup => exact push_inv h _
  | swap => exact push_inv (push_inv (pop_inv (pop_inv h)) _) _
  | over => exact push_inv (push_inv (push_inv (pop_inv (pop_inv h)) _) _) _
  | add => exact set_inv (pop_inv h) _ _
  | and_ => exact set_inv (pop_inv h) _ _
  | or_ => exact set_inv (pop_inv h) _ _
  | xor => exact set_inv (pop_inv h) _ _
  | invert => exact set_inv h _ _
  | negate => exact set_inv h _ _

/-- Any instruction sequence preserves the invariant. -/
lemma runOps_inv {k : Nat} {s : ForthStack} (h : s.Inv k) (ops : List StackOp) :
    (s.runOps ops).Inv k := by
  induction ops generalizing s with
  | nil => exact h
  | cons op ops ih => exact ih (applyOp_inv h op)

/-- The freshly constructed `ForthStack(2^k, 2^k - 1)` satisfies the
invariant. -/
lemma init_inv (k : Nat) : (ForthStack.init (2 ^ k) ((2 : Int) ^ k - 1)).Inv k := by
  refine ⟨rfl, rfl, by simp [ForthStack.init], le_refl 0, ?_⟩
  show (0 : Int) < (2 : Int) ^ k
  positivity

/-- Claim C9: for every sequence of `ForthStack` operations on a stack
constructed with `stackSize` a power of two and
`stackMask = stackSize - 1`, the pointer always stays inside
`[0, stackSize - 1]` and the backing array keeps its size, so every array
access `self._stack[self._p]` is in bounds and no operation can fault
from overflow or underflow — the pointer simply wraps around. -/
theorem forth_stack_pointer_safe (k : Nat) (ops : List StackOp) :
    ((ForthStack.init (2 ^ k) ((2 : Int) ^ k - 1)).runOps ops).Inv k ∧
    ((ForthStack.init (2 ^ k) ((2 : Int) ^ k - 1)).runOps ops).p.toNat <
      ((ForthStack.init (2 ^ k) ((2 : Int) ^ k - 1)).runOps ops).stack.length := by
  have h := runOps_inv (init_inv k) ops
  refine ⟨h, ?_⟩
  obtain ⟨-, -, h3, h4, h5⟩ := h
  rw [h3]
  have h2 : ((2 ^ k : Nat) : Int) = (2 : Int) ^ k := by push_cast; ring
  omega
